import Mathlib

/-!
# Marketplace lifecycle engine: request → offer → order

Shallow embedding of the lifecycle routes of the boneka backend
(`src/routers/offer.py`, `src/routers/orders.py`,
`src/routers/request.py`) over the entities of `src/models.py`.

Rows are Lean structures; a database state is a `DB` record of row
lists.  SQLAlchemy `query(...).filter(...).first()` becomes
`List.find?`, `.all()` becomes `List.filter`, an ORM in-place row
update becomes a `List.map` that rewrites the row with the matching
primary key, and `db.add` becomes a list append.  Fresh primary keys
are drawn from `DB.nextId`.  HTTP error responses become the
`ApiError` sum; a handler returns `Except ApiError (DB × α)`, the new
state appearing only on success (an HTTPException aborts the request
before any commit, so an error leaves the store untouched).
UUID columns are modelled as `Nat`, `Numeric(12,2)` price columns as
`Int`, nullable `Text` category columns as `String` with `""` for the
Python-falsy values (`None` and the empty string).
-/

namespace Boneka

/-- `models.User`: only the columns the lifecycle routes read. -/
structure User where
  id : Nat
  role : String
  deriving DecidableEq, Repr

/-- `models.Product`: only the columns the lifecycle routes read. -/
structure Product where
  id : Nat
  supplier_id : Nat
  category : String
  deriving DecidableEq, Repr

/-- `models.RequestPost`: only the columns the lifecycle routes read. -/
structure RequestPost where
  id : Nat
  category : String
  offer_price : Int
  quantity : Int
  status : String
  customer_id : Nat
  deriving DecidableEq, Repr

/-- `models.Offer`. -/
structure Offer where
  id : Nat
  request_id : Nat
  supplier_id : Nat
  proposed : Int
  status : String
  deriving DecidableEq, Repr

/-- `models.Order`. -/
structure Order where
  id : Nat
  request_id : Nat
  offer_id : Nat
  customer_id : Nat
  supplier_id : Nat
  status : String
  total_price : Int
  quantity : Int
  deriving DecidableEq, Repr

/-- The relational store: one list of rows per lifecycle table, plus a
fresh-id counter standing in for the uuid4 primary-key defaults. -/
structure DB where
  users : List User
  products : List Product
  requests : List RequestPost
  offers : List Offer
  orders : List Order
  nextId : Nat
  deriving DecidableEq, Repr

/-- The HTTP error classes the lifecycle routes raise:
404 `notFound`, 400 `badRequest`, 403 `forbidden`. -/
inductive ApiError where
  | notFound (detail : String)
  | badRequest (detail : String)
  | forbidden (detail : String)
  deriving DecidableEq, Repr

/-- Body of `POST /offers/{request_id}/` (`schemas.offer_schema.OfferCreate`). -/
structure OfferCreate where
  supplier_id : Nat
  proposed : Int
  deriving DecidableEq, Repr

/-- Body of the admin shortcut routes (`schemas.offer_schema.OfferAccept`). -/
structure OfferAccept where
  request_id : Nat
  supplier_id : Nat
  deriving DecidableEq, Repr

/-- Body of `PATCH /orders/{order_id}/status`
(`schemas.orders_schema.OrderAction`; its `order_id` field is ignored by
the handler, which takes the order id from the path). -/
structure OrderAction where
  user_id : Nat
  action : String
  deriving DecidableEq, Repr

/-- `make_offer` (`src/routers/offer.py`, `POST /offers/{request_id}/`):
request looked up by id AND status `open`; supplier looked up; the
supplier must carry some product of the request category; the new offer
takes the caller-proposed price and the column-default status
`pending`.  There is no duplicate-pair check on this route. -/
def make_offer (request_id : Nat) (offer_in : OfferCreate) (db : DB) :
    Except ApiError (DB × Offer) :=
  match db.requests.find? (fun r => r.id == request_id && r.status == "open") with
  | none => .error (.notFound "Request not found or not open")
  | some req =>
    match db.users.find? (fun u => u.id == offer_in.supplier_id) with
    | none => .error (.notFound "Supplier not found")
    | some supplier =>
      let supplier_categories :=
        (db.products.filter (fun p => p.supplier_id == supplier.id)).map
          (fun p => p.category)
      if supplier_categories.contains req.category then
        let offer : Offer :=
          { id := db.nextId, request_id := req.id, supplier_id := supplier.id,
            proposed := offer_in.proposed, status := "pending" }
        .ok ({ db with offers := db.offers ++ [offer], nextId := db.nextId + 1 },
             offer)
      else
        .error (.forbidden "You dont carry that category or product for this request.")

/-- `accept_request` (`src/routers/offer.py`, `POST /offers/accept_request/`):
the admin shortcut.  Request looked up by id only (status unchecked),
supplier looked up, duplicate (request, supplier) offer refused, then an
offer is inserted already in status `accepted` with proposed price taken
from the request own `offer_price`.  The request row is never touched. -/
def accept_request (offer_in : OfferAccept) (db : DB) :
    Except ApiError (DB × String) :=
  match db.requests.find? (fun r => r.id == offer_in.request_id) with
  | none => .error (.notFound "Request not found or not open")
  | some req =>
    match db.users.find? (fun u => u.id == offer_in.supplier_id) with
    | none => .error (.notFound "Supplier not found")
    | some supplier =>
      match db.offers.find?
          (fun o => o.request_id == req.id && o.supplier_id == supplier.id) with
      | some _ =>
        .error (.badRequest "An offer from this supplier for this request already exists.")
      | none =>
        let offer : Offer :=
          { id := db.nextId, request_id := req.id, supplier_id := supplier.id,
            proposed := req.offer_price, status := "accepted" }
        .ok ({ db with offers := db.offers ++ [offer], nextId := db.nextId + 1 },
             "Offer accepted successfully")

/-- `reject_request` (`src/routers/offer.py`, `POST /offers/reject_request/`):
identical to `accept_request` except the inserted offer status is
`rejected`. -/
def reject_request (offer_in : OfferAccept) (db : DB) :
    Except ApiError (DB × String) :=
  match db.requests.find? (fun r => r.id == offer_in.request_id) with
  | none => .error (.notFound "Request not found or not open")
  | some req =>
    match db.users.find? (fun u => u.id == offer_in.supplier_id) with
    | none => .error (.notFound "Supplier not found")
    | some supplier =>
      match db.offers.find?
          (fun o => o.request_id == req.id && o.supplier_id == supplier.id) with
      | some _ =>
        .error (.badRequest "An offer from this supplier for this request already exists.")
      | none =>
        let offer : Offer :=
          { id := db.nextId, request_id := req.id, supplier_id := supplier.id,
            proposed := req.offer_price, status := "rejected" }
        .ok ({ db with offers := db.offers ++ [offer], nextId := db.nextId + 1 },
             "Offer rejected successfully")

/-- `respond_to_offer` (`src/routers/offer.py`,
`PATCH /offers/responds/offer/{offer_id}/`): the central state machine.
`accept` requires a pending offer, marks it accepted, marks the parent
request accepted and rejects every other pending offer of that request;
`confirm` requires an accepted offer and creates or finalises the order;
`reject` requires a pending offer and marks it rejected.  A missing
offer, or an offer whose parent request row is gone, is a 404.  In the
confirm branch the code builds the order with status `placed`, but
before committing sets it to `confirmed` (the early success return fires
only when a previously stored order is already `confirmed`). -/
def respond_to_offer (offer_id : Nat) (action : String) (db : DB) :
    Except ApiError (DB × String) :=
  match db.offers.find? (fun o => o.id == offer_id) with
  | none => .error (.notFound "Offer not found.")
  | some offer =>
    match db.requests.find? (fun r => r.id == offer.request_id) with
    | none => .error (.notFound "Offer not found.")
    | some req =>
      if action == "accept" then
        if offer.status != "pending" then
          .error (.badRequest "Offer already responded to.")
        else
          let offers := db.offers.map (fun o =>
            if o.id == offer.id then { o with status := "accepted" }
            else if o.request_id == req.id && o.status == "pending" then
              { o with status := "rejected" }
            else o)
          let requests := db.requests.map (fun r =>
            if r.id == req.id then { r with status := "accepted" } else r)
          .ok ({ db with offers := offers, requests := requests }, "Offer accepted")
      else if action == "confirm" then
        if offer.status != "accepted" then
          .error (.badRequest "Offer must be accepted before confirming.")
        else
          match db.orders.find? (fun od => od.offer_id == offer.id) with
          | none =>
            let order : Order :=
              { id := db.nextId, request_id := req.id, offer_id := offer.id,
                customer_id := req.customer_id, supplier_id := offer.supplier_id,
                status := "placed", total_price := offer.proposed,
                quantity := req.quantity }
            if order.status == "confirmed" then
              .ok (db, "Order already confirmed.")
            else
              .ok ({ db with
                      orders := db.orders ++ [{ order with status := "confirmed" }],
                      nextId := db.nextId + 1 },
                   "Order confirmed successfully")
          | some order =>
            if order.status == "confirmed" then
              .ok (db, "Order already confirmed.")
            else
              .ok ({ db with
                      orders := db.orders.map (fun od =>
                        if od.id == order.id then { od with status := "confirmed" }
                        else od) },
                   "Order confirmed successfully")
      else if action == "reject" then
        if offer.status != "pending" then
          .error (.badRequest "Offer already responded to.")
        else
          .ok ({ db with
                  offers := db.offers.map (fun o =>
                    if o.id == offer.id then { o with status := "rejected" } else o) },
               "Offer rejected")
      else
        .error (.badRequest "Invalid action.")

/-- `update_order_status` (`src/routers/orders.py`,
`PATCH /orders/{order_id}/status`): role- and ownership-gated terminal
transitions of an order.  A customer may cancel their own placed order;
a supplier may mark their own placed order delivered; every other
role/action pairing is a 403, a wrong status after a passing ownership
check is a 400. -/
def update_order_status (order_id : Nat) (action : OrderAction) (db : DB) :
    Except ApiError (DB × String) :=
  match db.orders.find? (fun od => od.id == order_id) with
  | none => .error (.notFound "Order not found")
  | some order =>
    match db.users.find? (fun u => u.id == action.user_id) with
    | none => .error (.notFound "User not found")
    | some user =>
      if user.role == "customer" && action.action == "cancelled" then
        if order.customer_id != user.id then
          .error (.forbidden "You are not authorized to cancel this order.")
        else if order.status != "placed" then
          .error (.badRequest
            ("Order status is " ++ order.status ++ ", cannot be cancelled."))
        else
          .ok ({ db with
                  orders := db.orders.map (fun od =>
                    if od.id == order.id then { od with status := "cancelled" }
                    else od) },
               "Order status updated successfully to cancelled")
      else if user.role == "supplier" && action.action == "delivered" then
        if order.supplier_id != user.id then
          .error (.forbidden "You are not authorized to mark this order as delivered.")
        else if order.status != "placed" then
          .error (.badRequest
            ("Order status is " ++ order.status ++ ", cannot be marked as delivered."))
        else
          .ok ({ db with
                  orders := db.orders.map (fun od =>
                    if od.id == order.id then { od with status := "delivered" }
                    else od) },
               "Order status updated successfully to delivered")
      else
        .error (.forbidden
          "User not allowed to perform this action or action is invalid for current order status.")

/-- `get_matching_supplier_requests` (`src/routers/request.py`,
`GET /requests/matching_supplier_requests/{supplier_id}`): collects the
distinct non-falsy categories of the supplier products and returns every
request whose category is in that set, with no filter on the request
status. -/
def get_matching_supplier_requests (supplier_id : Nat) (db : DB) :
    Except ApiError (List RequestPost) :=
  match db.users.find? (fun u => u.id == supplier_id) with
  | none => .error (.notFound "Supplier not found")
  | some _ =>
    let supplier_products := db.products.filter (fun p => p.supplier_id == supplier_id)
    if supplier_products.isEmpty then
      .error (.badRequest "Supplier has no products.")
    else
      let product_categories :=
        ((supplier_products.filter (fun p => p.category != "")).map
          (fun p => p.category)).dedup
      if product_categories.isEmpty then
        .error (.badRequest "No product categories found.")
      else
        .ok (db.requests.filter (fun r => product_categories.contains r.category))

/-- Status of the offer with the given id, if any. -/
def offerStatus (db : DB) (offer_id : Nat) : Option String :=
  (db.offers.find? (fun o => o.id == offer_id)).map (fun o => o.status)

/-- Status of the request with the given id, if any. -/
def requestStatus (db : DB) (request_id : Nat) : Option String :=
  (db.requests.find? (fun r => r.id == request_id)).map (fun r => r.status)

/-- Number of offers of the given request that are in status `accepted`. -/
def acceptedCount (db : DB) (request_id : Nat) : Nat :=
  db.offers.countP (fun o => o.request_id == request_id && o.status == "accepted")

/-- Number of offers for a given (request, supplier) pair. -/
def pairCount (db : DB) (request_id supplier_id : Nat) : Nat :=
  db.offers.countP (fun o => o.request_id == request_id && o.supplier_id == supplier_id)

/-- Number of orders referencing the given offer. -/
def orderCountForOffer (db : DB) (offer_id : Nat) : Nat :=
  db.orders.countP (fun od => od.offer_id == offer_id)

/-! ## General list lemmas -/

/-- `find?` commutes with a row update that cannot change the searched
predicate (e.g. a status rewrite searched by primary key). -/
theorem find?_map_comm {α : Type} (l : List α) (f : α → α) (p : α → Bool)
    (h : ∀ a, p (f a) = p a) : (l.map f).find? p = (l.find? p).map f := by
  rw [List.find?_map]
  have hpf : p ∘ f = p := funext h
  rw [hpf]

/-- A list with a member is not empty. -/
theorem isEmpty_false_of_mem {α : Type} {l : List α} {a : α} (h : a ∈ l) :
    l.isEmpty = false := by
  cases l
  · simp at h
  · rfl

/-! ## C1: the accept action -/

/-- **C1.** For every offer whose status is `pending`, `respond_to_offer`
with action `accept` sets that offer accepted, sets the parent request
accepted, turns every other pending offer of the same request to
`rejected` — so that afterwards no offer of the request is left pending —
and touches no order, user or product; on a non-pending offer it fails
with the invalid-transition error and changes nothing. -/
theorem respond_accept_spec (db : DB) (oid : Nat) (offer : Offer) (req : RequestPost)
    (hfind : db.offers.find? (fun o => o.id == oid) = some offer)
    (hreq : db.requests.find? (fun r => r.id == offer.request_id) = some req) :
    (offer.status = "pending" →
      ∃ db2, respond_to_offer oid "accept" db = .ok (db2, "Offer accepted") ∧
        offerStatus db2 oid = some "accepted" ∧
        requestStatus db2 offer.request_id = some "accepted" ∧
        (∀ o ∈ db.offers, o.id ≠ offer.id → o.request_id = offer.request_id →
          o.status = "pending" → { o with status := "rejected" } ∈ db2.offers) ∧
        (∀ o ∈ db2.offers, o.request_id = offer.request_id → o.status ≠ "pending") ∧
        db2.orders = db.orders ∧ db2.users = db.users ∧ db2.products = db.products) ∧
    (offer.status ≠ "pending" →
      respond_to_offer oid "accept" db = .error (.badRequest "Offer already responded to.")) := by
  have hid : offer.id = oid := by
    have h := List.find?_some hfind
    simpa using h
  have hrid : req.id = offer.request_id := by
    have h := List.find?_some hreq
    simpa using h
  constructor
  · intro hpend
    have hrun : respond_to_offer oid "accept" db =
        .ok ({ db with
                offers := db.offers.map (fun o =>
                  if o.id == offer.id then { o with status := "accepted" }
                  else if o.request_id == req.id && o.status == "pending" then
                    { o with status := "rejected" }
                  else o),
                requests := db.requests.map (fun r =>
                  if r.id == req.id then { r with status := "accepted" } else r) },
             "Offer accepted") := by
      simp only [respond_to_offer, hfind, hreq]
      simp [hpend]
    refine ⟨_, hrun, ?_, ?_, ?_, ?_, rfl, rfl, rfl⟩
    · unfold offerStatus
      have hcomm := find?_map_comm db.offers
        (fun o => if o.id == offer.id then { o with status := "accepted" }
          else if o.request_id == req.id && o.status == "pending" then
            { o with status := "rejected" }
          else o)
        (fun o => o.id == oid)
        (by intro a
            by_cases h1 : a.id == offer.id
            · simp [h1]
            · by_cases h2 : a.request_id == req.id && a.status == "pending"
              · simp [h1, h2]
              · simp [h1, h2])
      simp only [hcomm, hfind, Option.map_some]
      have : (offer.id == offer.id) = true := by simp
      simp [hid]
    · unfold requestStatus
      have hcomm := find?_map_comm db.requests
        (fun r => if r.id == req.id then { r with status := "accepted" } else r)
        (fun r => r.id == offer.request_id)
        (by intro a
            by_cases h1 : a.id == req.id
            · simp [h1]
            · simp [h1])
      simp only [hcomm, hreq, Option.map_some]
      simp [hrid]
    · intro o hmem hneid hnreq hnpend
      refine List.mem_map.mpr ⟨o, hmem, ?_⟩
      have h1 : (o.id == offer.id) = false := by
        simp [hneid]
      have h2 : (o.request_id == req.id && o.status == "pending") = true := by
        simp [hnreq, hrid, hnpend]
      simp [h1, h2]
    · intro o hmem hreqid
      rcases List.mem_map.mp hmem with ⟨a, hamem, hfa⟩
      by_cases h1 : a.id == offer.id
      · rw [← hfa]; simp [h1]
      · by_cases h2 : a.request_id == req.id && a.status == "pending"
        · rw [← hfa]; simp [h1, h2]
        · have hfa2 : o = a := by rw [← hfa]; simp [h1, h2]
          subst hfa2
          intro hpend2
          exact h2 (by simp [hreqid, hrid, hpend2])
  · intro hnpend
    simp only [respond_to_offer, hfind, hreq]
    simp [hnpend]

/-- A small concrete store: one open request with two pending offers
from different suppliers. -/
def C1db : DB :=
  { users := [], products := [],
    requests := [{ id := 1, category := "cat", offer_price := 100, quantity := 2,
                   status := "open", customer_id := 9 }],
    offers := [{ id := 5, request_id := 1, supplier_id := 2, proposed := 90,
                 status := "pending" },
               { id := 6, request_id := 1, supplier_id := 3, proposed := 80,
                 status := "pending" }],
    orders := [], nextId := 10 }

/-- C1 is satisfiable: accepting the pending offer 5 of `C1db` succeeds,
and afterwards offer 5 and request 1 are accepted. -/
theorem respond_accept_spec_witness :
    ∃ db2, respond_to_offer 5 "accept" C1db = .ok (db2, "Offer accepted") ∧
      offerStatus db2 5 = some "accepted" ∧
      requestStatus db2 1 = some "accepted" := by
  have h := respond_accept_spec C1db 5
    { id := 5, request_id := 1, supplier_id := 2, proposed := 90, status := "pending" }
    { id := 1, category := "cat", offer_price := 100, quantity := 2,
      status := "open", customer_id := 9 }
    (by decide) (by decide)
  rcases h.1 rfl with ⟨db2, h1, h2, h3, _⟩
  exact ⟨db2, h1, h2, h3⟩

/-! ## C7: creating an offer -/

/-- **C7.** `make_offer` succeeds exactly when the request exists in
status `open`, the supplier exists, and some product of the supplier has
the category of the request; on success it appends a single offer in
status `pending` carrying the caller-proposed price and leaves every
other table and row unchanged; otherwise it fails with the
request-not-found, supplier-not-found, or category-mismatch error of the
failed precondition. -/
theorem make_offer_spec (db : DB) (rid : Nat) (inp : OfferCreate) :
    (db.requests.find? (fun r => r.id == rid && r.status == "open") = none →
      make_offer rid inp db = .error (.notFound "Request not found or not open")) ∧
    (∀ req, db.requests.find? (fun r => r.id == rid && r.status == "open") = some req →
      (db.users.find? (fun u => u.id == inp.supplier_id) = none →
        make_offer rid inp db = .error (.notFound "Supplier not found")) ∧
      (∀ supplier, db.users.find? (fun u => u.id == inp.supplier_id) = some supplier →
        ((¬ ∃ p ∈ db.products, p.supplier_id = supplier.id ∧ p.category = req.category) →
          make_offer rid inp db =
            .error (.forbidden "You dont carry that category or product for this request.")) ∧
        ((∃ p ∈ db.products, p.supplier_id = supplier.id ∧ p.category = req.category) →
          make_offer rid inp db =
            .ok ({ db with
                    offers := db.offers ++
                      [{ id := db.nextId, request_id := req.id,
                         supplier_id := supplier.id, proposed := inp.proposed,
                         status := "pending" }],
                    nextId := db.nextId + 1 },
                 { id := db.nextId, request_id := req.id, supplier_id := supplier.id,
                   proposed := inp.proposed, status := "pending" })))) := by
  refine ⟨?_, ?_⟩
  · intro hnone
    simp [make_offer, hnone]
  · intro req hreq
    refine ⟨?_, ?_⟩
    · intro hnouser
      simp [make_offer, hreq, hnouser]
    · intro supplier hsup
      refine ⟨?_, ?_⟩
      · intro hno
        simp [make_offer, hreq, hsup]
        simpa using hno
      · intro hyes
        simp [make_offer, hreq, hsup]
        exact hyes

/-- A concrete store for C7: an open request of category `cat`, a
supplier carrying a `cat` product. -/
def C7db : DB :=
  { users := [{ id := 2, role := "supplier" }],
    products := [{ id := 4, supplier_id := 2, category := "cat" }],
    requests := [{ id := 1, category := "cat", offer_price := 100, quantity := 2,
                   status := "open", customer_id := 9 }],
    offers := [], orders := [], nextId := 10 }

/-- C7 is satisfiable: on `C7db` the category of the request matches the
supplier catalog and the offer is inserted pending with the proposed
price 90. -/
theorem make_offer_spec_witness :
    make_offer 1 { supplier_id := 2, proposed := 90 } C7db =
      .ok ({ C7db with
              offers := [{ id := 10, request_id := 1, supplier_id := 2,
                           proposed := 90, status := "pending" }],
              nextId := 11 },
           { id := 10, request_id := 1, supplier_id := 2, proposed := 90,
             status := "pending" }) := by
  have h := (((make_offer_spec C7db 1 { supplier_id := 2, proposed := 90 }).2
      { id := 1, category := "cat", offer_price := 100, quantity := 2,
        status := "open", customer_id := 9 } (by decide)).2
      { id := 2, role := "supplier" } (by decide)).2
    ⟨{ id := 4, supplier_id := 2, category := "cat" }, by decide, rfl, rfl⟩
  simpa using h

/-! ## C8 and C10: the admin accept/reject shortcut -/

/-- **C8.** On an existing request and supplier with no prior offer for
the pair, the admin shortcut inserts one offer born `accepted`
(respectively `rejected`); the request table — hence the parent request
status — and every pre-existing offer are returned unchanged: no
cascade-reject of sibling pending offers happens. -/
theorem admin_shortcut_frame (db : DB) (rid sid : Nat) (req : RequestPost) (supplier : User)
    (hreq : db.requests.find? (fun r => r.id == rid) = some req)
    (hsup : db.users.find? (fun u => u.id == sid) = some supplier)
    (hnone : db.offers.find?
      (fun o => o.request_id == req.id && o.supplier_id == supplier.id) = none) :
    (accept_request { request_id := rid, supplier_id := sid } db =
      .ok ({ db with
              offers := db.offers ++
                [{ id := db.nextId, request_id := req.id, supplier_id := supplier.id,
                   proposed := req.offer_price, status := "accepted" }],
              nextId := db.nextId + 1 },
           "Offer accepted successfully")) ∧
    (reject_request { request_id := rid, supplier_id := sid } db =
      .ok ({ db with
              offers := db.offers ++
                [{ id := db.nextId, request_id := req.id, supplier_id := supplier.id,
                   proposed := req.offer_price, status := "rejected" }],
              nextId := db.nextId + 1 },
           "Offer rejected successfully")) := by
  constructor
  · simp [accept_request, hreq, hsup, hnone]
  · simp [reject_request, hreq, hsup, hnone]

/-- A concrete store for the admin shortcut: request 1 already carries a
pending offer from supplier 3; supplier 2 has none. -/
def C8db : DB :=
  { users := [{ id := 2, role := "supplier" }, { id := 3, role := "supplier" }],
    products := [],
    requests := [{ id := 1, category := "cat", offer_price := 100, quantity := 2,
                   status := "open", customer_id := 9 }],
    offers := [{ id := 7, request_id := 1, supplier_id := 3, proposed := 80,
                 status := "pending" }],
    orders := [], nextId := 10 }

/-- C8 is satisfiable: on `C8db` the shortcut leaves the request open and
the sibling pending offer 7 untouched. -/
theorem admin_shortcut_frame_witness :
    accept_request { request_id := 1, supplier_id := 2 } C8db =
      .ok ({ C8db with
              offers := C8db.offers ++
                [{ id := 10, request_id := 1, supplier_id := 2, proposed := 100,
                   status := "accepted" }],
              nextId := 11 },
           "Offer accepted successfully") := by
  have h := (admin_shortcut_frame C8db 1 2
    { id := 1, category := "cat", offer_price := 100, quantity := 2,
      status := "open", customer_id := 9 }
    { id := 2, role := "supplier" } (by decide) (by decide) (by decide)).1
  simpa using h

/-- **C10.** Both admin shortcut routes price the created offer at the
parent request own `offer_price`; the caller supplies no price. -/
theorem admin_shortcut_price (db : DB) (rid sid : Nat) (req : RequestPost) (supplier : User)
    (hreq : db.requests.find? (fun r => r.id == rid) = some req)
    (hsup : db.users.find? (fun u => u.id == sid) = some supplier)
    (hnone : db.offers.find?
      (fun o => o.request_id == req.id && o.supplier_id == supplier.id) = none) :
    (∃ db2 msg newOffer,
      accept_request { request_id := rid, supplier_id := sid } db = .ok (db2, msg) ∧
      db2.offers = db.offers ++ [newOffer] ∧ newOffer.proposed = req.offer_price) ∧
    (∃ db2 msg newOffer,
      reject_request { request_id := rid, supplier_id := sid } db = .ok (db2, msg) ∧
      db2.offers = db.offers ++ [newOffer] ∧ newOffer.proposed = req.offer_price) := by
  constructor
  · exact ⟨{ db with
              offers := db.offers ++
                [{ id := db.nextId, request_id := req.id, supplier_id := supplier.id,
                   proposed := req.offer_price, status := "accepted" }],
              nextId := db.nextId + 1 },
           "Offer accepted successfully",
           { id := db.nextId, request_id := req.id, supplier_id := supplier.id,
             proposed := req.offer_price, status := "accepted" },
           by simp [accept_request, hreq, hsup, hnone], rfl, rfl⟩
  · exact ⟨{ db with
              offers := db.offers ++
                [{ id := db.nextId, request_id := req.id, supplier_id := supplier.id,
                   proposed := req.offer_price, status := "rejected" }],
              nextId := db.nextId + 1 },
           "Offer rejected successfully",
           { id := db.nextId, request_id := req.id, supplier_id := supplier.id,
             proposed := req.offer_price, status := "rejected" },
           by simp [reject_request, hreq, hsup, hnone], rfl, rfl⟩

/-- C10 is satisfiable: on `C8db` the admin-accepted offer carries the
request target price 100, not any supplier figure. -/
theorem admin_shortcut_price_witness :
    ∃ db2 msg newOffer,
      accept_request { request_id := 1, supplier_id := 2 } C8db = .ok (db2, msg) ∧
      db2.offers = C8db.offers ++ [newOffer] ∧ newOffer.proposed = 100 := by
  have h := (admin_shortcut_price C8db 1 2
    { id := 1, category := "cat", offer_price := 100, quantity := 2,
      status := "open", customer_id := 9 }
    { id := 2, role := "supplier" } (by decide) (by decide) (by decide)).1
  simpa using h

/-! ## C5: duplicate (request, supplier) offers -/

/-- A concrete store for C5: supplier 2 already has the pending offer 5
on the open request 1 and carries a product of the request category. -/
def C5db : DB :=
  { users := [{ id := 2, role := "supplier" }],
    products := [{ id := 4, supplier_id := 2, category := "cat" }],
    requests := [{ id := 1, category := "cat", offer_price := 100, quantity := 2,
                   status := "open", customer_id := 9 }],
    offers := [{ id := 5, request_id := 1, supplier_id := 2, proposed := 90,
                 status := "pending" }],
    orders := [], nextId := 10 }

/-- The store of `C5db` after `make_offer` re-offers for the same pair. -/
def C5db2 : DB :=
  { C5db with
    offers := C5db.offers ++ [{ id := 10, request_id := 1, supplier_id := 2,
                                proposed := 95, status := "pending" }],
    nextId := 11 }

/-- **C5, counterexample.** `make_offer` performs no duplicate-pair
check: on `C5db`, where supplier 2 already has an offer on request 1, a
second `make_offer` for the same pair succeeds and the store ends up
with two offers for the pair — refuting the claim for the CreateOffer
operation. -/
theorem make_offer_duplicate_cex :
    pairCount C5db 1 2 = 1 ∧
    make_offer 1 { supplier_id := 2, proposed := 95 } C5db =
      .ok (C5db2, { id := 10, request_id := 1, supplier_id := 2, proposed := 95,
                    status := "pending" }) ∧
    pairCount C5db2 1 2 = 2 := by
  refine ⟨rfl, ?_, rfl⟩
  rfl

/-- **C5, amended.** Only the two admin shortcut routes guard the
(request, supplier) pair: when an offer for the pair already exists,
both fail with the conflict error and insert nothing (`make_offer`
performs no such check; see the counterexample). -/
theorem admin_duplicate_conflict (db : DB) (rid sid : Nat)
    (req : RequestPost) (supplier : User) (existing : Offer)
    (hreq : db.requests.find? (fun r => r.id == rid) = some req)
    (hsup : db.users.find? (fun u => u.id == sid) = some supplier)
    (hex : db.offers.find?
      (fun o => o.request_id == req.id && o.supplier_id == supplier.id) = some existing) :
    accept_request { request_id := rid, supplier_id := sid } db =
      .error (.badRequest "An offer from this supplier for this request already exists.") ∧
    reject_request { request_id := rid, supplier_id := sid } db =
      .error (.badRequest "An offer from this supplier for this request already exists.") := by
  constructor
  · simp [accept_request, hreq, hsup, hex]
  · simp [reject_request, hreq, hsup, hex]

/-- C5 amended is satisfiable: on `C5db` both shortcut routes refuse a
second offer for pair (1, 2). -/
theorem admin_duplicate_conflict_witness :
    accept_request { request_id := 1, supplier_id := 2 } C5db =
      .error (.badRequest "An offer from this supplier for this request already exists.") ∧
    reject_request { request_id := 1, supplier_id := 2 } C5db =
      .error (.badRequest "An offer from this supplier for this request already exists.") :=
  admin_duplicate_conflict C5db 1 2
    { id := 1, category := "cat", offer_price := 100, quantity := 2,
      status := "open", customer_id := 9 }
    { id := 2, role := "supplier" }
    { id := 5, request_id := 1, supplier_id := 2, proposed := 90, status := "pending" }
    (by decide) (by decide) (by decide)

/-! ## C3 and C4: the confirm action -/

/-- A concrete store for confirm: the accepted offer 5 on the accepted
request 1, no order yet. -/
def C3db : DB :=
  { users := [], products := [],
    requests := [{ id := 1, category := "cat", offer_price := 100, quantity := 2,
                   status := "accepted", customer_id := 9 }],
    offers := [{ id := 5, request_id := 1, supplier_id := 2, proposed := 95,
                 status := "accepted" }],
    orders := [], nextId := 10 }

/-- The store of `C3db` after a first confirm of offer 5. -/
def C3db2 : DB :=
  { C3db with
    orders := [{ id := 10, request_id := 1, offer_id := 5, customer_id := 9,
                 supplier_id := 2, status := "confirmed", total_price := 95,
                 quantity := 2 }],
    nextId := 11 }

/-- **C3, counterexample.** Confirming the accepted offer 5 of `C3db`
creates the one expected order — price 95 from the offer, quantity 2,
customer 9 and supplier 2 — but its committed status is `confirmed`,
not `placed` as claimed (the handler builds the row as `placed` and
overwrites the status with `confirmed` before the commit; `confirmed` is
not even a member of the `order_statuses` enum of `models.Order`). -/
theorem confirm_status_cex :
    respond_to_offer 5 "confirm" C3db = .ok (C3db2, "Order confirmed successfully") ∧
    orderCountForOffer C3db2 5 = 1 ∧
    (∀ od ∈ C3db2.orders, od.status = "confirmed") ∧
    ¬ (∀ od ∈ C3db2.orders, od.status = "placed") := by
  refine ⟨?_, rfl, by decide, by decide⟩
  rfl

/-- **C3, amended.** For every accepted offer with no existing order,
`confirm` creates exactly one order with total price the offer proposed
price, quantity the request quantity, the request customer and the
offer supplier — and resulting status `confirmed` (built `placed`, then
marked `confirmed` within the same operation); a non-accepted offer
fails with the invalid-transition error. -/
theorem respond_confirm_spec (db : DB) (oid : Nat) (offer : Offer) (req : RequestPost)
    (hfind : db.offers.find? (fun o => o.id == oid) = some offer)
    (hreq : db.requests.find? (fun r => r.id == offer.request_id) = some req) :
    (offer.status = "accepted" →
      db.orders.find? (fun od => od.offer_id == offer.id) = none →
      ∃ db2, respond_to_offer oid "confirm" db = .ok (db2, "Order confirmed successfully") ∧
        db2 = { db with
                orders := db.orders ++
                  [{ id := db.nextId, request_id := req.id, offer_id := offer.id,
                     customer_id := req.customer_id, supplier_id := offer.supplier_id,
                     status := "confirmed", total_price := offer.proposed,
                     quantity := req.quantity }],
                nextId := db.nextId + 1 } ∧
        orderCountForOffer db2 offer.id = 1) ∧
    (offer.status ≠ "accepted" →
      respond_to_offer oid "confirm" db =
        .error (.badRequest "Offer must be accepted before confirming.")) := by
  constructor
  · intro hacc hnone
    refine ⟨_, ?_, rfl, ?_⟩
    · simp [respond_to_offer, hfind, hreq, hacc, hnone]
    · unfold orderCountForOffer
      have hzero : db.orders.countP (fun od => od.offer_id == offer.id) = 0 := by
        refine List.countP_eq_zero.mpr ?_
        intro od hod
        have h := List.find?_eq_none.mp hnone od hod
        simpa using h
      simp [hzero]
  · intro hnacc
    simp only [respond_to_offer, hfind, hreq]
    simp [hnacc]

/-- C3 amended is satisfiable on `C3db`. -/
theorem respond_confirm_spec_witness :
    ∃ db2, respond_to_offer 5 "confirm" C3db = .ok (db2, "Order confirmed successfully") ∧
      orderCountForOffer db2 5 = 1 := by
  have h := ((respond_confirm_spec C3db 5
    { id := 5, request_id := 1, supplier_id := 2, proposed := 95, status := "accepted" }
    { id := 1, category := "cat", offer_price := 100, quantity := 2,
      status := "accepted", customer_id := 9 }
    (by decide) (by decide)).1 rfl (by decide))
  rcases h with ⟨db2, hok, _, hcount⟩
  exact ⟨db2, hok, hcount⟩

/-- **C4.** Confirming an accepted offer that has no order yet and then
confirming it again yields exactly one order for the offer: the second
call returns success on the very same store — the already-confirmed
early return — modifying nothing. -/
theorem respond_confirm_idempotent (db : DB) (oid : Nat) (offer : Offer) (req : RequestPost)
    (hfind : db.offers.find? (fun o => o.id == oid) = some offer)
    (hreq : db.requests.find? (fun r => r.id == offer.request_id) = some req)
    (hacc : offer.status = "accepted")
    (hnone : db.orders.find? (fun od => od.offer_id == offer.id) = none) :
    ∃ db2, respond_to_offer oid "confirm" db = .ok (db2, "Order confirmed successfully") ∧
      orderCountForOffer db2 offer.id = 1 ∧
      respond_to_offer oid "confirm" db2 = .ok (db2, "Order already confirmed.") := by
  have hrun : respond_to_offer oid "confirm" db =
      .ok ({ db with
              orders := db.orders ++
                [{ id := db.nextId, request_id := req.id, offer_id := offer.id,
                   customer_id := req.customer_id, supplier_id := offer.supplier_id,
                   status := "confirmed", total_price := offer.proposed,
                   quantity := req.quantity }],
              nextId := db.nextId + 1 },
           "Order confirmed successfully") := by
    simp [respond_to_offer, hfind, hreq, hacc, hnone]
  refine ⟨_, hrun, ?_, ?_⟩
  · unfold orderCountForOffer
    have hzero : db.orders.countP (fun od => od.offer_id == offer.id) = 0 := by
      refine List.countP_eq_zero.mpr ?_
      intro od hod
      have h := List.find?_eq_none.mp hnone od hod
      simpa using h
    simp [hzero]
  · have hfind2 : (db.orders ++
        [{ id := db.nextId, request_id := req.id, offer_id := offer.id,
           customer_id := req.customer_id, supplier_id := offer.supplier_id,
           status := "confirmed", total_price := offer.proposed,
           quantity := req.quantity : Order }]).find?
        (fun od => od.offer_id == offer.id) =
        some { id := db.nextId, request_id := req.id, offer_id := offer.id,
               customer_id := req.customer_id, supplier_id := offer.supplier_id,
               status := "confirmed", total_price := offer.proposed,
               quantity := req.quantity } := by
      rw [List.find?_append, hnone]
      simp
    simp [respond_to_offer, hfind, hreq, hacc, hfind2]

/-- A pristine confirm store for the C4 witness (same shape as `C3db`). -/
def C4db : DB :=
  { users := [], products := [],
    requests := [{ id := 1, category := "cat", offer_price := 100, quantity := 2,
                   status := "accepted", customer_id := 9 }],
    offers := [{ id := 5, request_id := 1, supplier_id := 2, proposed := 95,
                 status := "accepted" }],
    orders := [], nextId := 10 }

/-- C4 is satisfiable on `C4db`. -/
theorem respond_confirm_idempotent_witness :
    ∃ db2, respond_to_offer 5 "confirm" C4db = .ok (db2, "Order confirmed successfully") ∧
      orderCountForOffer db2 5 = 1 ∧
      respond_to_offer 5 "confirm" db2 = .ok (db2, "Order already confirmed.") :=
  respond_confirm_idempotent C4db 5
    { id := 5, request_id := 1, supplier_id := 2, proposed := 95, status := "accepted" }
    { id := 1, category := "cat", offer_price := 100, quantity := 2,
      status := "accepted", customer_id := 9 }
    (by decide) (by decide) rfl (by decide)

/-! ## C6: order status updates -/

/-- **C6.** `update_order_status` permits `cancelled` only to the order
customer and `delivered` only to the order supplier — any caller who
does not own the order in the required role gets a 403 `forbidden`, and
so does every role/action pairing outside the two permitted ones; in
particular `delivered` invoked by the order customer (who is not the
supplier) is `forbidden`.  For the properly owning caller in the proper
role, an order whose status is not `placed` fails with the 400
invalid-transition error.  Every error returns without a new store, so
the order is unchanged. -/
theorem update_order_status_spec (db : DB) (order_id : Nat) (act : OrderAction)
    (order : Order) (user : User)
    (hord : db.orders.find? (fun od => od.id == order_id) = some order)
    (huser : db.users.find? (fun u => u.id == act.user_id) = some user) :
    (act.action = "cancelled" → user.id ≠ order.customer_id →
      ∃ d, update_order_status order_id act db = .error (.forbidden d)) ∧
    (act.action = "delivered" → user.id ≠ order.supplier_id →
      ∃ d, update_order_status order_id act db = .error (.forbidden d)) ∧
    (act.action = "delivered" → user.id = order.customer_id → user.id ≠ order.supplier_id →
      ∃ d, update_order_status order_id act db = .error (.forbidden d)) ∧
    (¬(user.role = "customer" ∧ act.action = "cancelled") →
     ¬(user.role = "supplier" ∧ act.action = "delivered") →
      ∃ d, update_order_status order_id act db = .error (.forbidden d)) ∧
    (act.action = "cancelled" → user.role = "customer" → user.id = order.customer_id →
      order.status ≠ "placed" →
      ∃ d, update_order_status order_id act db = .error (.badRequest d)) ∧
    (act.action = "delivered" → user.role = "supplier" → user.id = order.supplier_id →
      order.status ≠ "placed" →
      ∃ d, update_order_status order_id act db = .error (.badRequest d)) := by
  refine ⟨?_, ?_, ?_, ?_, ?_, ?_⟩
  · intro hcanc hown
    by_cases hrole : user.role = "customer"
    · refine ⟨"You are not authorized to cancel this order.", ?_⟩
      simp [update_order_status, hord, huser, hrole, hcanc, Ne.symm hown]
    · refine ⟨"User not allowed to perform this action or action is invalid for current order status.", ?_⟩
      simp [update_order_status, hord, huser, hrole, hcanc]
  · intro hdel hown
    by_cases hrole : user.role = "supplier"
    · refine ⟨"You are not authorized to mark this order as delivered.", ?_⟩
      simp [update_order_status, hord, huser, hrole, hdel, Ne.symm hown]
    · refine ⟨"User not allowed to perform this action or action is invalid for current order status.", ?_⟩
      simp [update_order_status, hord, huser, hrole, hdel]
  · intro hdel _ hown
    by_cases hrole : user.role = "supplier"
    · refine ⟨"You are not authorized to mark this order as delivered.", ?_⟩
      simp [update_order_status, hord, huser, hrole, hdel, Ne.symm hown]
    · refine ⟨"User not allowed to perform this action or action is invalid for current order status.", ?_⟩
      simp [update_order_status, hord, huser, hrole, hdel]
  · intro hnc hns
    refine ⟨"User not allowed to perform this action or action is invalid for current order status.", ?_⟩
    have hc : (user.role == "customer" && act.action == "cancelled") = false := by
      rcases Bool.eq_false_or_eq_true (user.role == "customer" && act.action == "cancelled")
        with h | h
      · exact absurd (by simpa using h) hnc
      · exact h
    have hs : (user.role == "supplier" && act.action == "delivered") = false := by
      rcases Bool.eq_false_or_eq_true (user.role == "supplier" && act.action == "delivered")
        with h | h
      · exact absurd (by simpa using h) hns
      · exact h
    simp [update_order_status, hord, huser, hc, hs]
  · intro hcanc hrole hown hst
    refine ⟨"Order status is " ++ order.status ++ ", cannot be cancelled.", ?_⟩
    simp [update_order_status, hord, huser, hrole, hcanc, hown.symm, hst]
  · intro hdel hrole hown hst
    refine ⟨"Order status is " ++ order.status ++ ", cannot be marked as delivered.", ?_⟩
    by_cases hc : user.role = "customer"
    · rw [hrole] at hc
      simp at hc
    · simp [update_order_status, hord, huser, hrole, hdel, hc, hown.symm, hst]

/-- A concrete store for C6: the placed order 20 of customer 9 from
supplier 2, plus a delivered order shape via a status hypothesis. -/
def C6db : DB :=
  { users := [{ id := 9, role := "customer" }, { id := 2, role := "supplier" }],
    products := [], requests := [], offers := [],
    orders := [{ id := 20, request_id := 1, offer_id := 5, customer_id := 9,
                 supplier_id := 2, status := "delivered", total_price := 95,
                 quantity := 2 }],
    nextId := 30 }

/-- C6 is satisfiable on `C6db`: `delivered` by the customer 9 is
forbidden, and `cancelled` by customer 9 on the already-delivered order
is an invalid transition. -/
theorem update_order_status_spec_witness :
    (∃ d, update_order_status 20 { user_id := 9, action := "delivered" } C6db =
      .error (.forbidden d)) ∧
    (∃ d, update_order_status 20 { user_id := 9, action := "cancelled" } C6db =
      .error (.badRequest d)) := by
  constructor
  · exact (update_order_status_spec C6db 20 { user_id := 9, action := "delivered" }
      { id := 20, request_id := 1, offer_id := 5, customer_id := 9, supplier_id := 2,
        status := "delivered", total_price := 95, quantity := 2 }
      { id := 9, role := "customer" } (by decide) (by decide)).2.2.1 rfl rfl (by decide)
  · exact (update_order_status_spec C6db 20 { user_id := 9, action := "cancelled" }
      { id := 20, request_id := 1, offer_id := 5, customer_id := 9, supplier_id := 2,
        status := "delivered", total_price := 95, quantity := 2 }
      { id := 9, role := "customer" } (by decide) (by decide)).2.2.2.2.1 rfl rfl rfl
      (by decide)

/-! ## C9: matching requests for a supplier -/

/-- **C9.** For an existing supplier owning at least one product with a
non-empty category, `get_matching_supplier_requests` returns exactly the
requests whose category is carried (non-empty) by some product of the
supplier, with no condition on the request status; a supplier with no
products, or with only uncategorized products, gets the 400
invalid-input errors. -/
theorem matching_requests_spec (db : DB) (sid : Nat) (supplier : User)
    (hsup : db.users.find? (fun u => u.id == sid) = some supplier) :
    ((∃ p ∈ db.products, p.supplier_id = sid ∧ p.category ≠ "") →
      ∃ result, get_matching_supplier_requests sid db = .ok result ∧
        ∀ r, r ∈ result ↔ r ∈ db.requests ∧
          ∃ p ∈ db.products, p.supplier_id = sid ∧ p.category = r.category ∧
            p.category ≠ "") ∧
    (db.products.filter (fun p => p.supplier_id == sid) = [] →
      get_matching_supplier_requests sid db =
        .error (.badRequest "Supplier has no products.")) ∧
    ((∃ p ∈ db.products, p.supplier_id = sid) →
      (∀ p ∈ db.products, p.supplier_id = sid → p.category = "") →
      get_matching_supplier_requests sid db =
        .error (.badRequest "No product categories found.")) := by
  refine ⟨?_, ?_, ?_⟩
  · rintro ⟨p, hp, hps, hpc⟩
    have hpfilter : p ∈ db.products.filter (fun q => q.supplier_id == sid) :=
      List.mem_filter.mpr ⟨hp, by simp [hps]⟩
    have hne : (db.products.filter (fun q => q.supplier_id == sid)).isEmpty = false :=
      isEmpty_false_of_mem hpfilter
    have hpcat : p ∈ (db.products.filter (fun q => q.supplier_id == sid)).filter
        (fun q => q.category != "") :=
      List.mem_filter.mpr ⟨hpfilter, by simp [hpc]⟩
    have hcond : ¬ (∀ a ∈ db.products, ¬a.category = "" → ¬a.supplier_id = sid) :=
      fun hbad => (hbad p hp hpc) hps
    refine ⟨db.requests.filter (fun r =>
        ((((db.products.filter (fun q => q.supplier_id == sid)).filter
          (fun q => q.category != "")).map (fun q => q.category)).dedup).contains
          r.category),
      by simp [get_matching_supplier_requests, hsup, hne, hcond], ?_⟩
    intro r
    simp only [List.mem_filter, List.contains_iff_exists_mem_beq, List.mem_dedup,
      List.mem_map, beq_iff_eq]
    constructor
    · rintro ⟨hr, c, ⟨q, ⟨⟨hq0, hq3⟩, hq2⟩, hqc⟩, hc⟩
      refine ⟨hr, q, hq0, hq3, by rw [hqc, ← hc], by simpa using hq2⟩
    · rintro ⟨hr, q, hq, hqs, hqc, hqne⟩
      exact ⟨hr, q.category, ⟨q, ⟨⟨hq, hqs⟩, by simp [hqne]⟩, rfl⟩, hqc.symm⟩
  · intro hempty
    simp [get_matching_supplier_requests, hsup, hempty]
  · rintro ⟨p, hp, hps⟩ hall
    have hpfilter : p ∈ db.products.filter (fun q => q.supplier_id == sid) :=
      List.mem_filter.mpr ⟨hp, by simp [hps]⟩
    have hne : (db.products.filter (fun q => q.supplier_id == sid)).isEmpty = false :=
      isEmpty_false_of_mem hpfilter
    have hcats : ((db.products.filter (fun q => q.supplier_id == sid)).filter
        (fun q => q.category != "")) = [] := by
      refine List.filter_eq_nil_iff.mpr ?_
      intro q hq
      rcases List.mem_filter.mp hq with ⟨hq0, hqs⟩
      have := hall q hq0 (by simpa using hqs)
      simp [this]
    simp [get_matching_supplier_requests, hsup, hne, hcats]

/-- A concrete store for C9: supplier 2 carries category `a`; request 1
has category `a` but is already accepted, request 2 has category `b`. -/
def C9db : DB :=
  { users := [{ id := 2, role := "supplier" }],
    products := [{ id := 4, supplier_id := 2, category := "a" }],
    requests := [{ id := 1, category := "a", offer_price := 100, quantity := 1,
                   status := "accepted", customer_id := 9 },
                 { id := 2, category := "b", offer_price := 50, quantity := 1,
                   status := "open", customer_id := 9 }],
    offers := [], orders := [], nextId := 10 }

/-- C9 is satisfiable on `C9db`: the accepted request of category `a` is
returned (status does not matter), the category-`b` request is not. -/
theorem matching_requests_spec_witness :
    ∃ result, get_matching_supplier_requests 2 C9db = .ok result ∧
      ({ id := 1, category := "a", offer_price := 100, quantity := 1,
         status := "accepted", customer_id := 9 } : RequestPost) ∈ result ∧
      ({ id := 2, category := "b", offer_price := 50, quantity := 1,
         status := "open", customer_id := 9 } : RequestPost) ∉ result := by
  have h := (matching_requests_spec C9db 2 { id := 2, role := "supplier" } (by decide)).1
    ⟨{ id := 4, supplier_id := 2, category := "a" }, by decide, rfl, by decide⟩
  rcases h with ⟨result, hok, hiff⟩
  refine ⟨result, hok, ?_, ?_⟩
  · exact (hiff _).mpr ⟨by decide,
      { id := 4, supplier_id := 2, category := "a" }, by decide, rfl, rfl, by decide⟩
  · intro hmem
    rcases ((hiff _).mp hmem).2 with ⟨q, hq, -, hqc, -⟩
    simp only [C9db, List.mem_singleton] at hq
    rw [hq] at hqc
    exact absurd hqc (by decide)

/-! ## C2: at most one accepted offer per request -/

/-- One successful run of any lifecycle operation of the claim:
CreateOffer, the admin accept/reject shortcut, or RespondToOffer. -/
inductive LifecycleStep : DB → DB → Prop where
  | createOffer (rid : Nat) (inp : OfferCreate) {db db2 : DB} {o : Offer}
      (h : make_offer rid inp db = .ok (db2, o)) : LifecycleStep db db2
  | adminAccept (inp : OfferAccept) {db db2 : DB} {m : String}
      (h : accept_request inp db = .ok (db2, m)) : LifecycleStep db db2
  | adminReject (inp : OfferAccept) {db db2 : DB} {m : String}
      (h : reject_request inp db = .ok (db2, m)) : LifecycleStep db db2
  | respond (oid : Nat) (act : String) {db db2 : DB} {m : String}
      (h : respond_to_offer oid act db = .ok (db2, m)) : LifecycleStep db db2

/-- One successful run of CreateOffer or RespondToOffer — the lifecycle
without the admin shortcut. -/
inductive CoreStep : DB → DB → Prop where
  | createOffer (rid : Nat) (inp : OfferCreate) {db db2 : DB} {o : Offer}
      (h : make_offer rid inp db = .ok (db2, o)) : CoreStep db db2
  | respond (oid : Nat) (act : String) {db db2 : DB} {m : String}
      (h : respond_to_offer oid act db = .ok (db2, m)) : CoreStep db db2

/-- A starting store: no offers and no orders yet (requests and users
arbitrary). -/
def InitialDB (db : DB) : Prop := db.offers = [] ∧ db.orders = []

/-- C2 counterexample, initial store: one open request, two suppliers. -/
def C2db0 : DB :=
  { users := [{ id := 2, role := "supplier" }, { id := 3, role := "supplier" }],
    products := [],
    requests := [{ id := 1, category := "cat", offer_price := 100, quantity := 2,
                   status := "open", customer_id := 9 }],
    offers := [], orders := [], nextId := 10 }

/-- `C2db0` after the admin shortcut accepts supplier 2 on request 1. -/
def C2db1 : DB :=
  { C2db0 with
    offers := [{ id := 10, request_id := 1, supplier_id := 2, proposed := 100,
                 status := "accepted" }],
    nextId := 11 }

/-- `C2db1` after the admin shortcut also accepts supplier 3. -/
def C2db2 : DB :=
  { C2db1 with
    offers := C2db1.offers ++
      [{ id := 11, request_id := 1, supplier_id := 3, proposed := 100,
         status := "accepted" }],
    nextId := 12 }

/-- **C2, counterexample.** From an initial store, two runs of the admin
accept shortcut — one of the operations the claim ranges over — reach a
state where request 1 has two `accepted` offers, refuting the
at-most-one-accepted invariant for the full operation set. -/
theorem lifecycle_accepted_cex :
    InitialDB C2db0 ∧
    Relation.ReflTransGen LifecycleStep C2db0 C2db2 ∧
    acceptedCount C2db2 1 = 2 := by
  refine ⟨⟨rfl, rfl⟩, ?_, rfl⟩
  have h1 : LifecycleStep C2db0 C2db1 :=
    .adminAccept { request_id := 1, supplier_id := 2 } (by rfl)
  have h2 : LifecycleStep C2db1 C2db2 :=
    .adminAccept { request_id := 1, supplier_id := 3 } (by rfl)
  exact Relation.ReflTransGen.head h1 (Relation.ReflTransGen.single h2)

/-- Primary keys of the offer table are fresh and distinct. -/
def OffersWF (db : DB) : Prop :=
  (∀ o ∈ db.offers, o.id < db.nextId) ∧
  db.offers.Pairwise (fun a b => a.id ≠ b.id)

/-- The acceptance invariant: every request has at most one accepted
offer, and an accepted offer shuts its request — the request row is not
`open` any more and no sibling offer is still `pending`. -/
def AcceptedInv (db : DB) : Prop :=
  (∀ rid, acceptedCount db rid ≤ 1) ∧
  (∀ a ∈ db.offers, a.status = "accepted" →
    (∀ r ∈ db.requests, r.id = a.request_id → r.status ≠ "open") ∧
    (∀ o ∈ db.offers, o.request_id = a.request_id → o.status ≠ "pending"))

/-- The inductive invariant of the core lifecycle. -/
def LifecycleInv (db : DB) : Prop := OffersWF db ∧ AcceptedInv db

/-- An initial store satisfies the invariant. -/
theorem initial_inv {db : DB} (h : InitialDB db) : LifecycleInv db := by
  rcases h with ⟨hoff, -⟩
  refine ⟨⟨?_, ?_⟩, ?_, ?_⟩
  · intro o ho; rw [hoff] at ho; simp at ho
  · rw [hoff]; exact List.Pairwise.nil
  · intro rid; unfold acceptedCount; rw [hoff]; simp
  · intro a ha; rw [hoff] at ha; simp at ha

/-- Two members of a key-distinct list with the same key are equal. -/
theorem eq_of_mem_key {α : Type} {key : α → Nat} {l : List α}
    (hp : l.Pairwise (fun a b => key a ≠ key b)) {x y : α}
    (hx : x ∈ l) (hy : y ∈ l) (hk : key x = key y) : x = y := by
  induction l with
  | nil => simp at hx
  | cons a t ih =>
    rcases List.pairwise_cons.mp hp with ⟨ha, ht⟩
    rcases List.mem_cons.mp hx with hx1 | hx1 <;> rcases List.mem_cons.mp hy with hy1 | hy1
    · rw [hx1, hy1]
    · subst hx1; exact absurd hk (ha y hy1)
    · subst hy1; exact absurd hk.symm (ha x hx1)
    · exact ih ht hx1 hy1

/-- In a key-distinct list, exactly one member carries the key of a
member. -/
theorem countP_key_eq_one {α : Type} {key : α → Nat} {l : List α}
    (hp : l.Pairwise (fun a b => key a ≠ key b)) {x : α} (hx : x ∈ l) :
    l.countP (fun o => key o == key x) = 1 := by
  induction l with
  | nil => simp at hx
  | cons a t ih =>
    rcases List.pairwise_cons.mp hp with ⟨ha, ht⟩
    rcases List.mem_cons.mp hx with hx1 | hx1
    · subst hx1
      rw [List.countP_cons_of_pos _ _ (by simp)]
      have hz : t.countP (fun o => key o == key x) = 0 :=
        List.countP_eq_zero.mpr (fun b hb => by
          simpa using fun he => (ha b hb) he.symm)
      rw [hz]
    · rw [List.countP_cons_of_neg]
      · exact ih ht hx1
      · simpa using ha x hx1

/-- Successful `make_offer` runs append one fresh pending offer on an
open request and change nothing else. -/
theorem make_offer_ok_shape {rid : Nat} {inp : OfferCreate} {db db2 : DB} {o : Offer}
    (h : make_offer rid inp db = .ok (db2, o)) :
    ∃ req ∈ db.requests, req.id = rid ∧ req.status = "open" ∧
      o.id = db.nextId ∧ o.request_id = req.id ∧ o.status = "pending" ∧
      db2 = { db with offers := db.offers ++ [o], nextId := db.nextId + 1 } := by
  simp only [make_offer] at h
  split at h
  · simp at h
  · rename_i req hreq
    split at h
    · simp at h
    · rename_i supplier hsup
      split at h
      · injection h with h2
        cases h2
        have hr := List.find?_some hreq
        have hrm := List.mem_of_find?_eq_some hreq
        simp only [Bool.and_eq_true, beq_iff_eq] at hr
        exact ⟨req, hrm, hr.1, hr.2, rfl, rfl, rfl, rfl⟩
      · simp at h

/-- `make_offer` preserves the lifecycle invariant. -/
theorem make_offer_inv {rid : Nat} {inp : OfferCreate} {db db2 : DB} {o : Offer}
    (h : make_offer rid inp db = .ok (db2, o)) (hinv : LifecycleInv db) :
    LifecycleInv db2 := by
  rcases make_offer_ok_shape h with
    ⟨req, hreqm, hreqid, hreqopen, hoid, horeq, hostat, hdb2⟩
  rcases hinv with ⟨⟨hbound, hpair⟩, hcount, hclause⟩
  subst hdb2
  refine ⟨⟨?_, ?_⟩, ?_, ?_⟩
  · intro x hx
    rcases List.mem_append.mp hx with hx | hx
    · exact Nat.lt_succ_of_lt (hbound x hx)
    · rw [List.mem_singleton] at hx; subst hx
      rw [hoid]; exact Nat.lt_succ_self _
  · show (db.offers ++ [o]).Pairwise (fun a b => a.id ≠ b.id)
    rw [List.pairwise_append]
    refine ⟨hpair, List.pairwise_singleton _ _, ?_⟩
    intro x hx y hy
    rw [List.mem_singleton] at hy; subst hy
    rw [hoid]
    exact Nat.ne_of_lt (hbound x hx)
  · intro rid2
    unfold acceptedCount
    show (db.offers ++ [o]).countP
      (fun x => x.request_id == rid2 && x.status == "accepted") ≤ 1
    rw [List.countP_append]
    have hz : List.countP
        (fun x => x.request_id == rid2 && x.status == "accepted") [o] = 0 := by
      simp [hostat]
    rw [hz]
    simpa using hcount rid2
  · intro a ha hacc
    rcases List.mem_append.mp ha with ha | ha
    · refine ⟨?_, ?_⟩
      · intro r hr hrid
        exact (hclause a ha hacc).1 r hr hrid
      · intro o2 ho2 ho2rid
        rcases List.mem_append.mp ho2 with ho2 | ho2
        · exact (hclause a ha hacc).2 o2 ho2 ho2rid
        · rw [List.mem_singleton] at ho2
          rw [ho2] at ho2rid ⊢
          have hreqa : req.id = a.request_id := by rw [← horeq]; exact ho2rid
          exact fun _ => ((hclause a ha hacc).1 req hreqm hreqa) hreqopen
    · rw [List.mem_singleton] at ha; subst ha
      rw [hostat] at hacc
      exact absurd hacc (by decide)

/-- Successful `respond_to_offer` runs either perform the accept
cascade, reject the one offer, or — for `confirm` — leave offers and
requests untouched. -/
theorem respond_ok_shape {oid : Nat} {act : String} {db db2 : DB} {m : String}
    (h : respond_to_offer oid act db = .ok (db2, m)) :
    ∃ offer ∈ db.offers, offer.id = oid ∧
    ∃ req ∈ db.requests, req.id = offer.request_id ∧
    ((offer.status = "pending" ∧
      db2.offers = db.offers.map (fun o =>
        if o.id == offer.id then { o with status := "accepted" }
        else if o.request_id == req.id && o.status == "pending" then
          { o with status := "rejected" }
        else o) ∧
      db2.requests = db.requests.map (fun r =>
        if r.id == req.id then { r with status := "accepted" } else r) ∧
      db2.nextId = db.nextId) ∨
     (offer.status = "pending" ∧
      db2.offers = db.offers.map (fun o =>
        if o.id == offer.id then { o with status := "rejected" } else o) ∧
      db2.requests = db.requests ∧
      db2.nextId = db.nextId) ∨
     (db2.offers = db.offers ∧ db2.requests = db.requests ∧
      db.nextId ≤ db2.nextId)) := by
  simp only [respond_to_offer] at h
  split at h
  · simp at h
  rename_i offer hfind
  split at h
  · simp at h
  rename_i req hreq
  have hmem := List.mem_of_find?_eq_some hfind
  have hoid : offer.id = oid := by simpa using List.find?_some hfind
  have hreqm := List.mem_of_find?_eq_some hreq
  have hreqid : req.id = offer.request_id := by simpa using List.find?_some hreq
  refine ⟨offer, hmem, hoid, req, hreqm, hreqid, ?_⟩
  split at h
  · -- action "accept"
    split at h
    · simp at h
    · rename_i hpend
      injection h with h2
      cases h2
      exact Or.inl ⟨by simpa using hpend, rfl, rfl, rfl⟩
  · split at h
    · -- action "confirm"
      split at h
      · simp at h
      · split at h
        · -- no existing order: fresh insert
          split at h
          · rename_i hconf
            exact absurd hconf (by decide)
          · injection h with h2
            cases h2
            exact Or.inr (Or.inr ⟨rfl, rfl, Nat.le_succ _⟩)
        · -- existing order
          split at h
          · injection h with h2
            cases h2
            exact Or.inr (Or.inr ⟨rfl, rfl, Nat.le_refl _⟩)
          · injection h with h2
            cases h2
            exact Or.inr (Or.inr ⟨rfl, rfl, Nat.le_refl _⟩)
    · split at h
      · -- action "reject"
        split at h
        · simp at h
        · rename_i hpend
          injection h with h2
          cases h2
          exact Or.inr (Or.inl ⟨by simpa using hpend, rfl, rfl, rfl⟩)
      · simp at h

/-- `respond_to_offer` preserves the lifecycle invariant. -/
theorem respond_inv {oid : Nat} {act : String} {db db2 : DB} {m : String}
    (h : respond_to_offer oid act db = .ok (db2, m)) (hinv : LifecycleInv db) :
    LifecycleInv db2 := by
  rcases respond_ok_shape h with ⟨offer, hmem, -, req, hreqm, hreqid, hcase⟩
  rcases hinv with ⟨⟨hbound, hpair⟩, hcount, hclause⟩
  rcases hcase with ⟨hpend, hoff, hreqs, hnext⟩ | ⟨hpend, hoff, hreqs, hnext⟩ |
    ⟨hoff, hreqs, hnext⟩
  · -- accept cascade
    have hfid : ∀ x : Offer,
        ((if x.id == offer.id then { x with status := "accepted" }
          else if x.request_id == req.id && x.status == "pending" then
            { x with status := "rejected" }
          else x) : Offer).id = x.id := by
      intro x
      split
      · rfl
      · split <;> rfl
    have hzero : ∀ x ∈ db.offers,
        ¬(x.request_id == offer.request_id && x.status == "accepted") = true := by
      intro x hx hbad
      simp only [Bool.and_eq_true, beq_iff_eq] at hbad
      exact ((hclause x hx hbad.2).2 offer hmem hbad.1.symm) hpend
    refine ⟨⟨?_, ?_⟩, ?_, ?_⟩
    · intro x hx
      rw [hoff] at hx
      rcases List.mem_map.mp hx with ⟨y, hym, hfy⟩
      rw [← hfy, hfid y, hnext]
      exact hbound y hym
    · rw [hoff]
      refine List.pairwise_map.mpr ?_
      exact hpair.imp (fun hab => by rw [hfid, hfid]; exact hab)
    · intro rid
      unfold acceptedCount
      rw [hoff, List.countP_map]
      by_cases hr : rid = offer.request_id
      · subst hr
        have hpt : ∀ x ∈ db.offers,
            ((fun o => o.request_id == offer.request_id && o.status == "accepted") ∘
              (fun o =>
                if o.id == offer.id then { o with status := "accepted" }
                else if o.request_id == req.id && o.status == "pending" then
                  { o with status := "rejected" }
                else o)) x ↔ (fun o => o.id == offer.id) x := by
          intro x hxm
          simp only [Function.comp_apply]
          by_cases hx : x.id == offer.id
          · have hxe : x = offer := eq_of_mem_key hpair hxm hmem (by simpa using hx)
            simp [hx, hxe]
          · by_cases hp : x.request_id == req.id && x.status == "pending"
            · simp [hx, hp]
            · simp only [hx]
              simp only [Bool.false_eq_true, if_false, hp]
              exact iff_of_false (hzero x hxm) (by simp [hx])
        rw [List.countP_congr hpt]
        exact Nat.le_of_eq (countP_key_eq_one hpair hmem)
      · have hpt : ∀ x ∈ db.offers,
            ((fun o => o.request_id == rid && o.status == "accepted") ∘
              (fun o =>
                if o.id == offer.id then { o with status := "accepted" }
                else if o.request_id == req.id && o.status == "pending" then
                  { o with status := "rejected" }
                else o)) x ↔
            (fun o => o.request_id == rid && o.status == "accepted") x := by
          intro x hxm
          simp only [Function.comp_apply]
          by_cases hx : x.id == offer.id
          · have hxe : x = offer := eq_of_mem_key hpair hxm hmem (by simpa using hx)
            have hne : (offer.request_id == rid) = false := by
              simp
              exact fun he => hr he.symm
            simp [hx, hxe, hne]
          · by_cases hp : x.request_id == req.id && x.status == "pending"
            · have hp2 := hp
              simp only [Bool.and_eq_true, beq_iff_eq] at hp2
              simp [hx, hp2.1, hp2.2]
            · simp [hx, hp]
        rw [List.countP_congr hpt]
        exact hcount rid
    · intro a ha hacc
      rw [hoff] at ha
      rcases List.mem_map.mp ha with ⟨x, hxm, hfx⟩
      by_cases hx : x.id == offer.id
      · have hxe : x = offer := eq_of_mem_key hpair hxm hmem (by simpa using hx)
        have hfa : a = { offer with status := "accepted" } := by
          rw [← hfx, hxe]; simp
        have harid : a.request_id = offer.request_id := by rw [hfa]
        refine ⟨?_, ?_⟩
        · intro r2 hr2 hr2id
          rw [hreqs] at hr2
          rcases List.mem_map.mp hr2 with ⟨r, hrm, hfr⟩
          by_cases hri : r.id == req.id
          · rw [← hfr]; simp [hri]
          · have hfr2 : r2 = r := by rw [← hfr]; simp [hri]
            rw [hfr2] at hr2id
            have : r.id = req.id := by rw [hr2id, harid, ← hreqid]
            exact absurd this (by simpa using hri)
        · intro o2 ho2 ho2id
          rw [hoff] at ho2
          rcases List.mem_map.mp ho2 with ⟨y, hym, hfy⟩
          by_cases hy : y.id == offer.id
          · rw [← hfy]; simp [hy]
          · by_cases hp2 : y.request_id == req.id && y.status == "pending"
            · rw [← hfy]; simp [hy, hp2]
            · have hfy2 : o2 = y := by rw [← hfy]; simp [hy, hp2]
              rw [hfy2] at ho2id ⊢
              intro hyp
              apply hp2
              simp only [Bool.and_eq_true, beq_iff_eq]
              exact ⟨by rw [ho2id, harid, ← hreqid], hyp⟩
      · by_cases hp : x.request_id == req.id && x.status == "pending"
        · have hfa : a.status = "rejected" := by rw [← hfx]; simp [hx, hp]
          rw [hfa] at hacc
          exact absurd hacc (by decide)
        · have hfa : a = x := by rw [← hfx]; simp [hx, hp]
          have hacc2 : x.status = "accepted" := by rw [← hfa]; exact hacc
          refine ⟨?_, ?_⟩
          · intro r2 hr2 hr2id
            rw [hreqs] at hr2
            rcases List.mem_map.mp hr2 with ⟨r, hrm, hfr⟩
            by_cases hri : r.id == req.id
            · rw [← hfr]; simp [hri]
            · have hfr2 : r2 = r := by rw [← hfr]; simp [hri]
              rw [hfr2] at hr2id ⊢
              have hrid2 : r.id = x.request_id := by rw [← hfa]; exact hr2id
              exact (hclause x hxm hacc2).1 r hrm hrid2
          · intro o2 ho2 ho2id
            rw [hoff] at ho2
            rcases List.mem_map.mp ho2 with ⟨y, hym, hfy⟩
            by_cases hy : y.id == offer.id
            · rw [← hfy]; simp [hy]
            · by_cases hp2 : y.request_id == req.id && y.status == "pending"
              · rw [← hfy]; simp [hy, hp2]
              · have hfy2 : o2 = y := by rw [← hfy]; simp [hy, hp2]
                rw [hfy2] at ho2id ⊢
                have hid2 : y.request_id = x.request_id := by rw [← hfa]; exact ho2id
                exact (hclause x hxm hacc2).2 y hym hid2
  · -- single reject
    have hfid : ∀ x : Offer,
        ((if x.id == offer.id then { x with status := "rejected" } else x) : Offer).id =
          x.id := by
      intro x
      split <;> rfl
    refine ⟨⟨?_, ?_⟩, ?_, ?_⟩
    · intro x hx
      rw [hoff] at hx
      rcases List.mem_map.mp hx with ⟨y, hym, hfy⟩
      rw [← hfy, hfid y, hnext]
      exact hbound y hym
    · rw [hoff]
      refine List.pairwise_map.mpr ?_
      exact hpair.imp (fun hab => by rw [hfid, hfid]; exact hab)
    · intro rid
      unfold acceptedCount
      rw [hoff, List.countP_map]
      have hpt : ∀ x ∈ db.offers,
          ((fun o => o.request_id == rid && o.status == "accepted") ∘
            (fun o => if o.id == offer.id then { o with status := "rejected" } else o)) x ↔
          (fun o => o.request_id == rid && o.status == "accepted") x := by
        intro x hxm
        simp only [Function.comp_apply]
        by_cases hx : x.id == offer.id
        · have hxe : x = offer := eq_of_mem_key hpair hxm hmem (by simpa using hx)
          simp [hx, hxe, hpend]
        · simp [hx]
      rw [List.countP_congr hpt]
      exact hcount rid
    · intro a ha hacc
      rw [hoff] at ha
      rcases List.mem_map.mp ha with ⟨x, hxm, hfx⟩
      by_cases hx : x.id == offer.id
      · have hfa : a.status = "rejected" := by rw [← hfx]; simp [hx]
        rw [hfa] at hacc
        exact absurd hacc (by decide)
      · have hfa : a = x := by rw [← hfx]; simp [hx]
        have hacc2 : x.status = "accepted" := by rw [← hfa]; exact hacc
        refine ⟨?_, ?_⟩
        · intro r2 hr2 hr2id
          rw [hreqs] at hr2
          have hrid2 : r2.id = x.request_id := by rw [← hfa]; exact hr2id
          exact (hclause x hxm hacc2).1 r2 hr2 hrid2
        · intro o2 ho2 ho2id
          rw [hoff] at ho2
          rcases List.mem_map.mp ho2 with ⟨y, hym, hfy⟩
          by_cases hy : y.id == offer.id
          · rw [← hfy]; simp [hy]
          · have hfy2 : o2 = y := by rw [← hfy]; simp [hy]
            rw [hfy2] at ho2id ⊢
            have hid2 : y.request_id = x.request_id := by rw [← hfa]; exact ho2id
            exact (hclause x hxm hacc2).2 y hym hid2
  · -- offers and requests untouched (confirm and its no-op)
    refine ⟨⟨?_, ?_⟩, ?_, ?_⟩
    · intro x hx
      rw [hoff] at hx
      exact Nat.lt_of_lt_of_le (hbound x hx) hnext
    · rw [hoff]; exact hpair
    · intro rid
      unfold acceptedCount
      rw [hoff]
      exact hcount rid
    · intro a ha hacc
      rw [hoff] at ha
      refine ⟨?_, ?_⟩
      · intro r hr hrid
        rw [hreqs] at hr
        exact (hclause a ha hacc).1 r hr hrid
      · intro o2 ho2 ho2id
        rw [hoff] at ho2
        exact (hclause a ha hacc).2 o2 ho2 ho2id

/-- A core lifecycle step preserves the invariant. -/
theorem coreStep_inv {db db2 : DB} (h : CoreStep db db2) (hinv : LifecycleInv db) :
    LifecycleInv db2 := by
  cases h with
  | createOffer rid inp hok => exact make_offer_inv hok hinv
  | respond oid act hok => exact respond_inv hok hinv

/-- Core reachability from an invariant state keeps the invariant. -/
theorem core_reachable_inv {db0 db : DB} (h0 : LifecycleInv db0)
    (h : Relation.ReflTransGen CoreStep db0 db) : LifecycleInv db := by
  induction h with
  | refl => exact h0
  | tail _ hstep ih => exact coreStep_inv hstep ih

/-- **C2, amended.** Restricted to the non-admin lifecycle operations —
CreateOffer and RespondToOffer — every state reachable from a store with
no offers has at most one accepted offer per request.  (The admin
accept shortcut breaks the invariant; see the counterexample.) -/
theorem core_lifecycle_accepted_unique (db0 db : DB) (h0 : InitialDB db0)
    (h : Relation.ReflTransGen CoreStep db0 db) (rid : Nat) :
    acceptedCount db rid ≤ 1 :=
  ((core_reachable_inv (initial_inv h0) h).2).1 rid

/-- `C7db` after `make_offer` by supplier 2 on request 1. -/
def C2core1 : DB :=
  { C7db with
    offers := [{ id := 10, request_id := 1, supplier_id := 2, proposed := 90,
                 status := "pending" }],
    nextId := 11 }

/-- `C2core1` after the customer accepts offer 10. -/
def C2core2 : DB :=
  { users := C7db.users, products := C7db.products,
    requests := [{ id := 1, category := "cat", offer_price := 100, quantity := 2,
                   status := "accepted", customer_id := 9 }],
    offers := [{ id := 10, request_id := 1, supplier_id := 2, proposed := 90,
                 status := "accepted" }],
    orders := [], nextId := 11 }

/-- C2 amended is satisfiable along a genuine two-step core run:
create an offer on `C7db`, accept it, and the reached store has at most
one accepted offer on request 1. -/
theorem core_lifecycle_accepted_unique_witness :
    acceptedCount C2core2 1 ≤ 1 := by
  refine core_lifecycle_accepted_unique C7db C2core2 ⟨rfl, rfl⟩ ?_ 1
  have h1 : CoreStep C7db C2core1 :=
    .createOffer 1 { supplier_id := 2, proposed := 90 } (by rfl)
  have h2 : CoreStep C2core1 C2core2 :=
    .respond 10 "accept" (by rfl)
  exact Relation.ReflTransGen.head h1 (Relation.ReflTransGen.single h2)

end Boneka
